import Mathlib

/-!
Verification development for the Connector & Import Orchestration Framework
of a personal investment aggregation system.

The Python sources are shallowly embedded:

* pure helper functions become Lean functions;
* methods that mutate `self` become functions from an explicit state
  structure to a result/state pair;
* wall-clock reads (`time.time()`, `datetime.now()`) become explicit `now`
  parameters; `time.sleep(x)` is modelled as advancing the effective time by
  exactly `x` seconds;
* Python exceptions become `Except` values; the connector error taxonomy
  (`AuthenticationError`, `RateLimitError`, `DataFetchError`,
  `ConfigurationError`) becomes the inductive `PyExn`;
* Python floats are modelled as rationals (`ℚ`), `str` as `String`,
  `dict` as insertion-ordered association lists, `set` as duplicate-free
  lists;
* Python truthiness is modelled explicitly where the source relies on it
  (`if ttl_override:`, `if result.error_message:`, `if self.last_call_time:`,
  `not self.config[k]`, `if transaction_id:`, `if symbol:`).

Source files embedded:
  src/data_manager/connectors/utils.py        (RateLimiter, ResponseCache,
                                               retry_with_backoff,
                                               generate_source_id)
  src/data_manager/connectors/base_connector.py (_validate_config)
  src/data_manager/connectors/ccxt_connector.py (get_holdings aggregation)
  src/data_manager/import_orchestrator.py     (run_full_sync, _sync_source,
                                               _process_holdings,
                                               _process_transactions,
                                               SyncResults.success)
  src/plugins/manager.py                      (discover_plugins,
                                               _load_manifest, list_plugins)
  src/plugins/registry.py                     (register, unregister, enable,
                                               disable, lock usage)
-/

/-- Python `"sep".join(components)`: empty string on `[]`, otherwise the
components interleaved with the separator. -/
def pyJoin (sep : String) : List String → String
  | [] => ""
  | [x] => x
  | x :: y :: xs => x ++ sep ++ pyJoin sep (y :: xs)

/-- Python `repr` of a `str` as it appears inside an f-string rendering of a
list (quote characters around the text; escaping inside the text is not
needed for the keys this development evaluates). -/
def pyStrRepr (s : String) : String := "\x27" ++ s ++ "\x27"

/-- Python `repr` of a list of strings, e.g. `['a', 'b']`. -/
def pyListRepr (l : List String) : String :=
  "[" ++ pyJoin ", " (l.map pyStrRepr) ++ "]"

/-! ## Connector error taxonomy (base_connector.py, lines 48-83)

`str(e)` of each exception is carried as the `String` payload: the
constructors already store the final rendered message (for
`AuthenticationError(msg, source)` the source renders `[source] msg` at
construction time, so the stored string is that rendering). -/

/-- A Python exception value as seen by the orchestrator's per-source
`try/except` ladder: the three specific connector errors it names, and
`other` for anything else reaching the bare `except Exception` arm
(including `ConfigurationError` and non-connector errors). The payload is
`str(e)`. -/
inductive PyExn where
  | authErr (msg : String)
  | rateErr (msg : String)
  | fetchErr (msg : String)
  | other (msg : String)
deriving DecidableEq, Repr

/-- `str(e)` of an exception value. -/
def pyExnText : PyExn → String
  | .authErr m => m
  | .rateErr m => m
  | .fetchErr m => m
  | .other m => m

/-! ## Retry policy (utils.py, `retry_with_backoff`, lines 241-301)

The wrapped operation is modelled as an oracle `f : Nat → Except E A`
giving the outcome of its `i`-th invocation (0-based).  Whether a raised
exception is an instance of the configured `exceptions` tuple is the
predicate `retryable`.  Sleeping and the `on_retry` observer are
side-effect-only and do not influence the result; the delay update
`delay = min(delay * exponential_base, max_delay)` is carried through the
recursion for fidelity. -/

instance {E A : Type} [DecidableEq E] [DecidableEq A] :
    DecidableEq (Except E A) := fun x y =>
  match x, y with
  | .ok a, .ok b =>
    if h : a = b then .isTrue (congrArg Except.ok h)
    else .isFalse (fun hc => h (Except.ok.inj hc))
  | .error a, .error b =>
    if h : a = b then .isTrue (congrArg Except.error h)
    else .isFalse (fun hc => h (Except.error.inj hc))
  | .ok _, .error _ => .isFalse (fun hc => Except.noConfusion hc)
  | .error _, .ok _ => .isFalse (fun hc => Except.noConfusion hc)

/-- Outcome of running a wrapped operation under the retry decorator:
the final result (returned value or uncaught/re-raised exception) together
with the number of times the wrapped function was invoked. -/
structure RetryOutcome (E A : Type) where
  outcome : Except E A
  calls : Nat
deriving DecidableEq, Repr

/-- The `for attempt in range(max_retries + 1)` loop of `retry_with_backoff`,
entered at invocation number `attempt` with `remaining` further retries
allowed.  A successful call returns immediately; a retryable exception with
retries remaining recurses; a retryable exception with no retries left is
re-raised after the loop (`raise last_exception`); a non-retryable exception
is not caught by `except exceptions` and propagates at once. -/
def retryLoop {E A : Type} (f : Nat → Except E A) (retryable : E → Bool) :
    (attempt remaining : Nat) → (delay maxDelay base : ℚ) → RetryOutcome E A
  | attempt, remaining, delay, maxDelay, base =>
    match f attempt with
    | .ok v => ⟨.ok v, attempt + 1⟩
    | .error e =>
      if retryable e then
        match remaining with
        | 0 => ⟨.error e, attempt + 1⟩
        | r + 1 =>
          retryLoop f retryable (attempt + 1) r
            (min (delay * base) maxDelay) maxDelay base
      else ⟨.error e, attempt + 1⟩

/-- `retry_with_backoff(max_retries, initial_delay, max_delay,
exponential_base, exceptions)` applied to the operation `f`. -/
def retry_with_backoff {E A : Type} (max_retries : Nat)
    (initial_delay max_delay exponential_base : ℚ)
    (retryable : E → Bool) (f : Nat → Except E A) : RetryOutcome E A :=
  retryLoop f retryable 0 max_retries initial_delay max_delay exponential_base

/-! ## Response cache (utils.py, `ResponseCache`, lines 102-238)

`datetime` values are rational timestamps (seconds); the internal dict
`key -> (value, expiry_time)` is an insertion-ordered association list, as a
Python dict is.  `datetime.now()` becomes the explicit `now` argument. -/

/-- Replace the value stored under `k` in place, or append a new entry:
the semantics of `d[k] = v` on a Python dict. -/
def assocSet {V : Type} : List (String × V) → String → V → List (String × V)
  | [], k, v => [(k, v)]
  | (k0, v0) :: rest, k, v =>
    if k0 = k then (k0, v) :: rest else (k0, v0) :: assocSet rest k v

/-- State of a `ResponseCache`: default TTL in seconds and the store
`key -> (value, expiry_time)`. -/
structure ResponseCache (V : Type) where
  ttl : ℚ
  cache : List (String × V × ℚ)
deriving DecidableEq, Repr

/-- `ResponseCache.get`: return the cached value if present and unexpired;
evict and miss if present but expired (`del self._cache[key]`); miss if
absent.  Returns the Python return value together with the cache state
afterwards. -/
def ResponseCache.get {V : Type} (c : ResponseCache V) (now : ℚ)
    (key : String) : Option V × ResponseCache V :=
  match c.cache.find? (fun e => e.1 == key) with
  | some (_, v, expiry) =>
    if now < expiry then (some v, c)
    else (none, { c with cache := c.cache.filter (fun e => !(e.1 == key)) })
  | none => (none, c)

/-- `ResponseCache.set`: store `value` under `key` expiring at
`now + ttl`.  `ttl_override` is used only when truthy (`if ttl_override:`),
so `some 0` falls back to the default TTL exactly as `0` does in Python. -/
def ResponseCache.set {V : Type} (c : ResponseCache V) (now : ℚ)
    (key : String) (value : V) (ttl_override : Option ℚ) : ResponseCache V :=
  let t := match ttl_override with
    | some o => if o = 0 then c.ttl else o
    | none => c.ttl
  { c with cache := assocSet c.cache key (value, now + t) }

/-- The dictionary produced by `ResponseCache.stats`. -/
structure CacheStats where
  entries : Nat
  expired : Nat
  valid : Nat
deriving DecidableEq, Repr

/-- `ResponseCache.stats`: entry count, count of entries whose expiry is
`<= now`, and the difference. -/
def ResponseCache.stats {V : Type} (c : ResponseCache V) (now : ℚ) :
    CacheStats :=
  let expired := (c.cache.filter (fun e => decide (e.2.2 ≤ now))).length
  { entries := c.cache.length
    expired := expired
    valid := c.cache.length - expired }

/-! ## Rate limiter (utils.py, `RateLimiter`, lines 22-99)

`time.time()` is the explicit `now` argument and `time.sleep(x)` advances
the effective clock by exactly `x`.  The Python source indexes
`self.call_times[0]` only under `len(...) >= self.calls_per_minute`; with
`calls_per_minute = 0` and no recorded calls that line would raise
`IndexError`, here `headD 0` stands in and the theorems assume
`calls_per_minute ≥ 1`. -/

/-- State of a `RateLimiter`. -/
structure RateLimiterState where
  calls_per_minute : Nat
  min_interval : ℚ
  last_call_time : Option ℚ
  call_times : List ℚ
deriving DecidableEq, Repr

/-- `RateLimiter.__init__`: `min_interval` is
`max(1.0 / calls_per_second, 60.0 / calls_per_minute)`. -/
def mkRateLimiter (calls_per_minute : Nat) (calls_per_second : ℚ) :
    RateLimiterState :=
  { calls_per_minute := calls_per_minute
    min_interval := max (1 / calls_per_second) (60 / (calls_per_minute : ℚ))
    last_call_time := none
    call_times := [] }

/-- `RateLimiter.wait` at wall-clock time `now`: drop call timestamps older
than 60 s, sleep past the minute ceiling if needed, then sleep out the
minimum inter-call interval (`if self.last_call_time:` is Python-truthy, so
a recorded time of exactly `0` is ignored), record the new call time, and
return the total delay incurred together with the new state. -/
def RateLimiterState.wait (s : RateLimiterState) (now : ℚ) :
    ℚ × RateLimiterState :=
  let ct := s.call_times.filter (fun t => decide (now - t < 60))
  let minuteSleep :=
    if ct.length ≥ s.calls_per_minute then
      let sleep_time := 60 - (now - ct.headD 0)
      if 0 < sleep_time then sleep_time else 0
    else 0
  let now1 := now + minuteSleep
  let intervalSleep :=
    match s.last_call_time with
    | some l =>
      if l = 0 then 0
      else
        let elapsed := now1 - l
        if elapsed < s.min_interval then s.min_interval - elapsed else 0
    | none => 0
  let last := now1 + intervalSleep
  (minuteSleep + intervalSleep,
   { s with last_call_time := some last, call_times := ct ++ [last] })

/-! ## Connector config validation (base_connector.py, `_validate_config`,
lines 307-319)

The configuration is a string-keyed, string-valued map; `not self.config[k]`
is Python truthiness of the value, i.e. the empty string is falsy. -/

/-- Whether `k` is a key of the configuration map. -/
def configHasKey (config : List (String × String)) (k : String) : Bool :=
  config.any (fun e => e.1 == k)

/-- The value stored under `k` (`""` when absent; only consulted when the
key is present). -/
def configValue (config : List (String × String)) (k : String) : String :=
  match config.find? (fun e => e.1 == k) with
  | some e => e.2
  | none => ""

/-- The predicate of the `missing` comprehension:
`k not in self.config or not self.config[k]`. -/
def configKeyMissing (config : List (String × String)) (k : String) : Bool :=
  !configHasKey config k || configValue config k == ""

/-- `BaseConnector._validate_config(required_keys)`: collect every required
key that is absent or has a falsy value, and raise `ConfigurationError`
with the f-string message `Missing required config keys: {missing}` when
that list is nonempty. -/
def validate_config (config : List (String × String))
    (required_keys : List String) : Except String Unit :=
  let missing := required_keys.filter (configKeyMissing config)
  if missing.isEmpty then .ok ()
  else .error ("Missing required config keys: " ++ pyListRepr missing)

/-! ## SHA-256 (hashlib.sha256, as used by `generate_source_id`)

A direct implementation over `Nat` with explicit reduction modulo `2^32`.
Messages are byte lists; strings are converted via UTF-8. -/

/-- Reduce to a 32-bit word. -/
def w32 (n : Nat) : Nat := n % 4294967296

/-- Right rotation of a 32-bit word. -/
def rotr32 (n x : Nat) : Nat := w32 ((x >>> n) ||| (x <<< (32 - n)))

/-- Bitwise complement of a 32-bit word. -/
def not32 (x : Nat) : Nat := x ^^^ 4294967295

/-- SHA-256 round constants. -/
def sha256K : Array Nat := #[
  1116352408, 1899447441, 3049323471, 3921009573,
  961987163, 1508970993, 2453635748, 2870763221,
  3624381080, 310598401, 607225278, 1426881987,
  1925078388, 2162078206, 2614888103, 3248222580,
  3835390401, 4022224774, 264347078, 604807628,
  770255983, 1249150122, 1555081692, 1996064986,
  2554220882, 2821834349, 2952996808, 3210313671,
  3336571891, 3584528711, 113926993, 338241895,
  666307205, 773529912, 1294757372, 1396182291,
  1695183700, 1986661051, 2177026350, 2456956037,
  2730485921, 2820302411, 3259730800, 3345764771,
  3516065817, 3600352804, 4094571909, 275423344,
  430227734, 506948616, 659060556, 883997877,
  958139571, 1322822218, 1537002063, 1747873779,
  1955562222, 2024104815, 2227730452, 2361852424,
  2428436474, 2756734187, 3204031479, 3329325298]

/-- SHA-256 initial hash state. -/
def sha256H0 : Array Nat := #[
  1779033703, 3144134277, 1013904242, 2773480762,
  1359893119, 2600822924, 528734635, 1541459225]

/-- Big-endian 64-bit encoding of a length in bits. -/
def be64 (n : Nat) : List Nat :=
  (List.range 8).map (fun i => (n >>> ((7 - i) * 8)) &&& 255)

/-- SHA-256 padding: `0x80`, zeros to 56 mod 64, then the bit length. -/
def sha256pad (msg : List Nat) : List Nat :=
  let padZeros := (64 + 56 - (msg.length + 1) % 64) % 64
  msg ++ [0x80] ++ List.replicate padZeros 0 ++ be64 (msg.length * 8)

/-- Split a byte list into 64-byte chunks; the fuel (initially the list
length, enough since every step consumes at least one byte) keeps the
recursion structural. -/
def chunks64Aux : Nat → List Nat → List (List Nat)
  | 0, _ => []
  | _, [] => []
  | fuel + 1, x :: rest =>
    (x :: rest).take 64 :: chunks64Aux fuel ((x :: rest).drop 64)

/-- Split a byte list into 64-byte chunks. -/
def chunks64 (l : List Nat) : List (List Nat) := chunks64Aux l.length l

/-- SHA-256 small sigma 0. -/
def ssig0 (x : Nat) : Nat := rotr32 7 x ^^^ rotr32 18 x ^^^ (x >>> 3)

/-- SHA-256 small sigma 1. -/
def ssig1 (x : Nat) : Nat := rotr32 17 x ^^^ rotr32 19 x ^^^ (x >>> 10)

/-- SHA-256 big sigma 0. -/
def bsig0 (x : Nat) : Nat := rotr32 2 x ^^^ rotr32 13 x ^^^ rotr32 22 x

/-- SHA-256 big sigma 1. -/
def bsig1 (x : Nat) : Nat := rotr32 6 x ^^^ rotr32 11 x ^^^ rotr32 25 x

/-- Message schedule of one 64-byte block: 16 big-endian words extended
to 64. -/
def sha256Schedule (block : List Nat) : Array Nat :=
  let w0 : Array Nat := ((List.range 16).map (fun i =>
    ((block.getD (4 * i) 0) <<< 24) ||| ((block.getD (4 * i + 1) 0) <<< 16) |||
    ((block.getD (4 * i + 2) 0) <<< 8) ||| block.getD (4 * i + 3) 0)).toArray
  (List.range 48).foldl (fun w j =>
    let i := j + 16
    w.push (w32 (ssig1 (w.getD (i - 2) 0) + w.getD (i - 7) 0 +
      ssig0 (w.getD (i - 15) 0) + w.getD (i - 16) 0))) w0

/-- One SHA-256 compression round over the 8-word working state. -/
def sha256Round (wsched : Array Nat)
    (st : Nat × Nat × Nat × Nat × Nat × Nat × Nat × Nat) (i : Nat) :
    Nat × Nat × Nat × Nat × Nat × Nat × Nat × Nat :=
  let (a, b, c, d, e, f, g, hh) := st
  let ch := (e &&& f) ^^^ (not32 e &&& g)
  let maj := (a &&& b) ^^^ (a &&& c) ^^^ (b &&& c)
  let t1 := w32 (hh + bsig1 e + ch + sha256K.getD i 0 + wsched.getD i 0)
  let t2 := w32 (bsig0 a + maj)
  (w32 (t1 + t2), a, b, c, w32 (d + t1), e, f, g)

/-- SHA-256 compression of one block into the hash state. -/
def sha256Compress (h : Array Nat) (block : List Nat) : Array Nat :=
  let wsched := sha256Schedule block
  let st0 := (h.getD 0 0, h.getD 1 0, h.getD 2 0, h.getD 3 0,
              h.getD 4 0, h.getD 5 0, h.getD 6 0, h.getD 7 0)
  let (a, b, c, d, e, f, g, hh) := (List.range 64).foldl (sha256Round wsched) st0
  #[w32 (h.getD 0 0 + a), w32 (h.getD 1 0 + b), w32 (h.getD 2 0 + c),
    w32 (h.getD 3 0 + d), w32 (h.getD 4 0 + e), w32 (h.getD 5 0 + f),
    w32 (h.getD 6 0 + g), w32 (h.getD 7 0 + hh)]

/-- Hex digit character for a value below 16. -/
def hexDigit (n : Nat) : Char :=
  if n < 10 then Char.ofNat (48 + n) else Char.ofNat (87 + n)

/-- 8-hex-digit rendering of a 32-bit word. -/
def word8hex (n : Nat) : String :=
  String.mk ((List.range 8).map (fun i => hexDigit ((n >>> ((7 - i) * 4)) &&& 15)))

/-- Concatenate a list of byte lists. -/
def bytesFlatten : List (List Nat) → List Nat
  | [] => []
  | x :: xs => x ++ bytesFlatten xs

/-- `hashlib.sha256(bytes).hexdigest()` over a byte list. -/
def sha256hex (msg : List Nat) : String :=
  String.join (((sha256pad msg |> chunks64).foldl sha256Compress sha256H0).toList.map word8hex)

/-- UTF-8 encoding of one code point. -/
def utf8EncodeChar (c : Char) : List Nat :=
  let n := c.toNat
  if n < 0x80 then [n]
  else if n < 0x800 then [0xC0 ||| (n >>> 6), 0x80 ||| (n &&& 0x3F)]
  else if n < 0x10000 then
    [0xE0 ||| (n >>> 12), 0x80 ||| ((n >>> 6) &&& 0x3F), 0x80 ||| (n &&& 0x3F)]
  else
    [0xF0 ||| (n >>> 18), 0x80 ||| ((n >>> 12) &&& 0x3F),
     0x80 ||| ((n >>> 6) &&& 0x3F), 0x80 ||| (n &&& 0x3F)]

/-- `str.encode()`: UTF-8 bytes of a string. -/
def strBytes (s : String) : List Nat :=
  bytesFlatten (s.data.map utf8EncodeChar)

/-! ## Datetime and float formatting used by `generate_source_id` -/

/-- A `datetime.datetime` value (microseconds zero, no timezone — the shape
produced by the connectors feeding the orchestrator). -/
structure PyDateTime where
  year : Nat
  month : Nat
  day : Nat
  hour : Nat
  minute : Nat
  second : Nat
deriving DecidableEq, Repr

/-- Zero-padded two-digit rendering. -/
def pad2 (n : Nat) : String := if n < 10 then "0" ++ toString n else toString n

/-- Zero-padded four-digit rendering. -/
def pad4 (n : Nat) : String :=
  if n < 10 then "000" ++ toString n
  else if n < 100 then "00" ++ toString n
  else if n < 1000 then "0" ++ toString n
  else toString n

/-- `datetime.isoformat()` for a microsecond-free value:
`YYYY-MM-DDTHH:MM:SS`. -/
def PyDateTime.isoformat (d : PyDateTime) : String :=
  pad4 d.year ++ "-" ++ pad2 d.month ++ "-" ++ pad2 d.day ++ "T" ++
  pad2 d.hour ++ ":" ++ pad2 d.minute ++ ":" ++ pad2 d.second

/-- Round a rational to the nearest integer, ties to even — the rounding
Python's fixed-point float formatting applies. -/
def roundHalfEven (q : ℚ) : ℤ :=
  let fl := q.floor
  let frac := q - (fl : ℚ)
  if frac < 1 / 2 then fl
  else if 1 / 2 < frac then fl + 1
  else if fl % 2 = 0 then fl else fl + 1

/-- Left-pad with zeros to six digits. -/
def padZeros6 (s : String) : String :=
  String.mk (List.replicate (6 - s.length) (Char.ofNat 48)) ++ s

/-- Python `f"{amount:.6f}"`: fixed-point rendering with exactly six
fractional digits. -/
def format6 (q : ℚ) : String :=
  let n := roundHalfEven (q * 1000000)
  let sign := if n < 0 then "-" else ""
  let m := n.natAbs
  sign ++ toString (m / 1000000) ++ "." ++ padZeros6 (toString (m % 1000000))

/-! ## `generate_source_id` (utils.py, lines 322-359) -/

/-- The component list hashed by `generate_source_id` when no external
transaction id is available: the source, then — when present — the ISO
date, the symbol (skipped when empty, `if symbol:`), and the amount at six
decimal places (`if amount is not None:` is an explicit `None` test, so a
zero amount is included). -/
def sourceIdComponents (source : String) (date : Option PyDateTime)
    (symbol : Option String) (amount : Option ℚ) : List String :=
  [source]
  ++ (match date with | some d => [d.isoformat] | none => [])
  ++ (match symbol with | some s => if s = "" then [] else [s] | none => [])
  ++ (match amount with | some a => [format6 a] | none => [])

/-- `"|".join(components)`: the exact byte payload hashed for the derived
id. -/
def sourceIdPayload (source : String) (date : Option PyDateTime)
    (symbol : Option String) (amount : Option ℚ) : String :=
  pyJoin "|" (sourceIdComponents source date symbol amount)

/-- The first 16 hex characters of the SHA-256 of a string
(`hexdigest()[:16]`). -/
def sha256hex16 (data : String) : String :=
  String.mk ((sha256hex (strBytes data)).data.take 16)

/-- `generate_source_id(source, transaction_id, date, symbol, amount)`:
`{source}_{transaction_id}` when a truthy transaction id is supplied
(`if transaction_id:` — the empty string falls through), otherwise
`{source}_{hash}` with the truncated SHA-256 of the joined components. -/
def generate_source_id (source : String) (transaction_id : Option String)
    (date : Option PyDateTime) (symbol : Option String) (amount : Option ℚ) :
    String :=
  let fallback :=
    source ++ "_" ++ sha256hex16 (sourceIdPayload source date symbol amount)
  match transaction_id with
  | some tid => if tid = "" then fallback else source ++ "_" ++ tid
  | none => fallback

/-! ## Import orchestrator (import_orchestrator.py)

DataFrames become lists of typed rows plus, for transactions, a flag for
whether the `source_id` column is present.  A connector under sync is the
pair of outcomes of its `get_holdings()` and
`get_transactions(since_date=...)` calls: each either returns
`Optional[DataFrame]` or raises.  `job_id`, timestamps and durations are
wall-clock/UUID effects and are not carried in the model. -/

/-- A normalized holdings row (HOLDINGS_COLUMNS). -/
structure HoldingRow where
  symbol : String
  name : String
  quantity : ℚ
  current_price : ℚ
  market_value : ℚ
  cost_basis : Option ℚ
  currency : String
  account_id : Option String
deriving DecidableEq, Repr

/-- A normalized transactions row (TRANSACTION_COLUMNS); fields are
optional because `_process_transactions` reads them with `row.get(...)`,
which yields `None` for a column the source did not provide. -/
structure TxnRow where
  date : Option PyDateTime
  symbol : Option String
  name : Option String
  transaction_type : Option String
  quantity : Option ℚ
  price : Option ℚ
  amount : Option ℚ
  currency : Option String
  fees : Option ℚ
  source_id : Option String
  account_id : Option String
deriving DecidableEq, Repr

/-- A transactions DataFrame: its rows and whether the `source_id` column
exists (`'source_id' in transactions.columns`). -/
structure TxnTable where
  hasSourceIdColumn : Bool
  rows : List TxnRow
deriving DecidableEq, Repr

/-- The behaviour of one initialized connector during a sync cycle:
its metadata connector-type string and the outcomes of the two fetch
calls `_sync_source` makes. -/
structure ConnectorRun where
  connector_type : String
  holdings : Except PyExn (Option (List HoldingRow))
  transactions : Except PyExn (Option TxnTable)
deriving DecidableEq, Repr

/-- Per-source outcome (`ImportResult`), without the wall-clock duration. -/
structure ImportResultM where
  source_type : String
  source_id : String
  success : Bool
  records_fetched : Nat
  records_imported : Nat
  records_updated : Nat
  records_skipped : Nat
  error_message : Option String
  holdings_df : Option (List HoldingRow)
  transactions_df : Option TxnTable
deriving DecidableEq, Repr

/-- Counts returned by `_process_holdings` / `_process_transactions`. -/
structure ProcessCounts where
  imported : Nat
  updated : Nat
  skipped : Nat
deriving DecidableEq, Repr

/-- `ImportOrchestrator._process_holdings`: counts every row as imported. -/
def process_holdings (holdings : List HoldingRow) : ProcessCounts :=
  { imported := holdings.length, updated := 0, skipped := 0 }

/-- The per-row assignment of the derived dedup key performed by
`_process_transactions`:
`generate_source_id(source_id, date=row.get('date'),
symbol=row.get('symbol'), amount=row.get('amount'))`. -/
def deriveRowSourceId (source_id : String) (row : TxnRow) : TxnRow :=
  { row with
      source_id := some (generate_source_id source_id none row.date
        row.symbol row.amount) }

/-- `ImportOrchestrator._process_transactions`: when the `source_id` column
is absent, derive one per row (the DataFrame is mutated in place), then
count every row as imported. -/
def process_transactions (transactions : TxnTable) (source_id : String) :
    TxnTable × ProcessCounts :=
  let t :=
    if transactions.hasSourceIdColumn then transactions
    else
      { hasSourceIdColumn := true
        rows := transactions.rows.map (deriveRowSourceId source_id) }
  (t, { imported := t.rows.length, updated := 0, skipped := 0 })

/-- The message stored on the failed `ImportResult` by the `except` ladder
of `_sync_source`: a kind-specific prefix followed by `str(e)`. -/
def syncErrorMessage : PyExn → String
  | .authErr m => "Authentication failed: " ++ m
  | .rateErr m => "Rate limit exceeded: " ++ m
  | .fetchErr m => "Data fetch failed: " ++ m
  | .other m => "Unexpected error: " ++ m

/-- `ImportOrchestrator._sync_source(source_id, connector, since_date)`:
fetch holdings, fetch transactions, record each nonempty table and its row
count, run the processing passes, and set `success`; any exception leaves
the partially filled result with `success = False` and the prefixed
message.  (`holdings is not None and len(holdings) > 0` keeps `None` and
empty tables out of the result.) -/
def sync_source (source_id : String) (c : ConnectorRun) : ImportResultM :=
  let r0 : ImportResultM :=
    { source_type := c.connector_type
      source_id := source_id
      success := false
      records_fetched := 0
      records_imported := 0
      records_updated := 0
      records_skipped := 0
      error_message := none
      holdings_df := none
      transactions_df := none }
  match c.holdings with
  | .error e => { r0 with error_message := some (syncErrorMessage e) }
  | .ok hOpt =>
    let r1 :=
      match hOpt with
      | some h =>
        if 0 < h.length then
          { r0 with holdings_df := some h
                    records_fetched := r0.records_fetched + h.length }
        else r0
      | none => r0
    match c.transactions with
    | .error e => { r1 with error_message := some (syncErrorMessage e) }
    | .ok tOpt =>
      let r2 :=
        match tOpt with
        | some t =>
          if 0 < t.rows.length then
            { r1 with transactions_df := some t
                      records_fetched := r1.records_fetched + t.rows.length }
          else r1
        | none => r1
      let r3 :=
        match r2.holdings_df with
        | some h =>
          let p := process_holdings h
          { r2 with records_imported := r2.records_imported + p.imported
                    records_updated := r2.records_updated + p.updated
                    records_skipped := r2.records_skipped + p.skipped }
        | none => r2
      let r4 :=
        match r3.transactions_df with
        | some t =>
          let (t2, p) := process_transactions t source_id
          { r3 with transactions_df := some t2
                    records_imported := r3.records_imported + p.imported
                    records_updated := r3.records_updated + p.updated
                    records_skipped := r3.records_skipped + p.skipped }
        | none => r3
      { r4 with success := true }

/-- Job record of a sync cycle (`SyncResults`), without job id and
timestamps. -/
structure SyncResultsM where
  source_results : List ImportResultM
  total_records_imported : Nat
  total_records_updated : Nat
  total_records_skipped : Nat
  errors : List String
deriving DecidableEq, Repr

/-- `SyncResults.success`: true iff at least one source result
succeeded. -/
def SyncResultsM.successFlag (r : SyncResultsM) : Bool :=
  r.source_results.any (fun x => x.success)

/-- Python truthiness of `result.error_message` (`None` and `""` are
falsy). -/
def errTruthy : Option String → Bool
  | some m => !(m == "")
  | none => false

/-- One iteration of the `for source_id, connector in
sources_to_sync.items()` loop of `run_full_sync`: append the per-source
result, add its counts, and append `f"{source_id}: {error_message}"` to the
error list when the result failed with a truthy message. -/
def syncStep (acc : SyncResultsM) (source_id : String) (c : ConnectorRun) :
    SyncResultsM :=
  let r := sync_source source_id c
  let acc1 :=
    { acc with
        source_results := acc.source_results ++ [r]
        total_records_imported := acc.total_records_imported + r.records_imported
        total_records_updated := acc.total_records_updated + r.records_updated
        total_records_skipped := acc.total_records_skipped + r.records_skipped }
  if !r.success && errTruthy r.error_message then
    { acc1 with errors :=
        acc1.errors ++ [source_id ++ ": " ++ r.error_message.getD ""] }
  else acc1

/-- The sync loop over the (insertion-ordered) connector dict. -/
def runFullSyncLoop (acc : SyncResultsM) :
    List (String × ConnectorRun) → SyncResultsM
  | [] => acc
  | (sid, c) :: rest => runFullSyncLoop (syncStep acc sid c) rest

/-- `ImportOrchestrator.run_full_sync(source_filter, since_date)` on an
orchestrator whose connectors are already initialized (`_initialized` is
true, so the init phase contributes no errors): restrict to the filter if
given, then sync every remaining source.  Exceptions escaping
`_sync_source` itself cannot arise here because the model's `sync_source`
is total, matching the source where the per-source `try/except` inside
`_sync_source` already catches every `Exception`. -/
def run_full_sync (connectors : List (String × ConnectorRun))
    (source_filter : Option (List String)) : SyncResultsM :=
  let sources_to_sync :=
    match source_filter with
    | some f => connectors.filter (fun p => f.contains p.1)
    | none => connectors
  runFullSyncLoop
    { source_results := []
      total_records_imported := 0
      total_records_updated := 0
      total_records_skipped := 0
      errors := [] }
    sources_to_sync

/-- The error-list entry contributed by one synced source: present exactly
when its result failed with a truthy message. -/
def errEntry (source_id : String) (r : ImportResultM) : Option String :=
  if !r.success && errTruthy r.error_message then
    some (source_id ++ ": " ++ r.error_message.getD "")
  else none

/-- The per-source sync of `c` raises the exception `e`: either the
holdings fetch raises it, or the holdings fetch returns and the
transactions fetch raises it.  (These are the only two calls inside the
`try` block of `_sync_source` that touch the connector.) -/
def connectorRaises (c : ConnectorRun) (e : PyExn) : Prop :=
  c.holdings = .error e ∨
  (∃ h, c.holdings = .ok h ∧ c.transactions = .error e)

/-! ## CCXT `get_holdings` aggregation (ccxt_connector.py, lines 262-349)

`_fetch_exchange_holdings` performs network I/O per exchange; its outcome
(a table, `None`, or a raised exception) is an oracle input per exchange.
The per-symbol filtering of `_fetch_exchange_holdings` is also embedded,
parameterized by the `fetch_balance()['total']` map and the price oracle
`self._get_price`. -/

/-- `CCXTConnector.CRYPTO_NAMES` lookup with the symbol itself as
default (`_get_asset_name`). -/
def ccxtAssetName (symbol : String) : String :=
  match ([
    ("BTC", "Bitcoin"), ("ETH", "Ethereum"), ("BNB", "Binance Coin"),
    ("SOL", "Solana"), ("ADA", "Cardano"), ("XRP", "Ripple"),
    ("DOT", "Polkadot"), ("DOGE", "Dogecoin"), ("AVAX", "Avalanche"),
    ("MATIC", "Polygon"), ("LINK", "Chainlink"), ("UNI", "Uniswap"),
    ("ATOM", "Cosmos"), ("LTC", "Litecoin"), ("ETC", "Ethereum Classic"),
    ("XLM", "Stellar"), ("ALGO", "Algorand"), ("NEAR", "NEAR Protocol"),
    ("FTM", "Fantom"), ("SAND", "The Sandbox"), ("MANA", "Decentraland"),
    ("APE", "ApeCoin"), ("SHIB", "Shiba Inu"), ("CRO", "Cronos"),
    ("USDT", "Tether"), ("USDC", "USD Coin"), ("BUSD", "Binance USD"),
    ("DAI", "Dai"), ("TUSD", "TrueUSD"), ("USDP", "Pax Dollar")
  ].find? (fun e => e.1 == symbol)) with
  | some e => e.2
  | none => symbol

/-- `CCXTConnector._fetch_exchange_holdings` on an uncached key, given the
balance totals returned by the exchange and the price oracle: keep strictly
positive balances (`if data and float(data) > 0`), drop dust below 1e-5,
build rows with `price or 0`, and return `None` when nothing remains. -/
def fetch_exchange_holdings (exchange_id : String)
    (price : String → Option ℚ) (balanceTotal : List (String × ℚ)) :
    Option (List HoldingRow) :=
  let holdings := balanceTotal.filterMap (fun e =>
    let (symbol, data) := e
    if 0 < data then
      if data < 1 / 100000 then none
      else
        let p := match price symbol with
          | some v => if v = 0 then 0 else v
          | none => 0
        some { symbol := symbol
               name := ccxtAssetName symbol
               quantity := data
               current_price := p
               market_value := data * p
               cost_basis := none
               currency := "USD"
               account_id := some exchange_id }
    else none)
  if holdings.isEmpty then none else some holdings

/-- `CCXTConnector.get_holdings(account_id)` given the outcome of
`_fetch_exchange_holdings` for each authenticated exchange (in the
insertion order of `self.exchanges`): raises `DataFetchError` when not
authenticated; otherwise collects each nonempty per-exchange table,
swallowing (logging only) any per-exchange exception, and returns the
concatenation — or the explicit empty holdings table when nothing was
collected. -/
def ccxt_get_holdings (is_authenticated : Bool)
    (account_id : Option String)
    (exchanges : List (String × Except PyExn (Option (List HoldingRow)))) :
    Except PyExn (Option (List HoldingRow)) :=
  if !is_authenticated then
    .error (.fetchErr "Not authenticated. Call authenticate() first.")
  else
    let toQuery : List (String × Except PyExn (Option (List HoldingRow))) :=
      match account_id with
      | some a => exchanges.filter (fun p => p.1 == a)
      | none => exchanges
    let all : List (List HoldingRow) := toQuery.filterMap (fun p =>
      match p.2 with
      | .ok (some h) => if 0 < h.length then some h else none
      | .ok none => none
      | .error _ => none)
    if all.isEmpty then .ok (some []) else .ok (some all.flatten)

/-! ## Plugin manifest and discovery (plugins/manager.py, plugins/base.py)

A plugins directory becomes a list of directory entries; each entry carries
its name, whether it is a directory, and the parsed `manifest.yaml` when
that file exists (`none` = no manifest).  Manifest values are either YAML
strings or lists of strings — the two shapes the loader reads. -/

/-- A parsed YAML manifest value. -/
inductive ManifestVal where
  | str (v : String)
  | strList (v : List String)
deriving DecidableEq, Repr

/-- A parsed `manifest.yaml`: field name to value. -/
abbrev Manifest := List (String × ManifestVal)

/-- `field in manifest`. -/
def manifestHasKey (m : Manifest) (k : String) : Bool :=
  m.any (fun e => e.1 == k)

/-- `manifest[k]` / `manifest.get(k, default)` read as a string. -/
def manifestGetStr (m : Manifest) (k : String) (default : String) : String :=
  match m.find? (fun e => e.1 == k) with
  | some (_, .str v) => v
  | _ => default

/-- `manifest.get(k)` read as an optional string. -/
def manifestGetStrOpt (m : Manifest) (k : String) : Option String :=
  match m.find? (fun e => e.1 == k) with
  | some (_, .str v) => some v
  | _ => none

/-- `manifest.get(k, [])` read as a list of strings. -/
def manifestGetList (m : Manifest) (k : String) : List String :=
  match m.find? (fun e => e.1 == k) with
  | some (_, .strList v) => v
  | _ => []

/-- `PluginCapability` (plugins/base.py, lines 25-32). -/
inductive PluginCapability where
  | HOLDINGS
  | TRANSACTIONS
  | BALANCES
  | TRANSFERS
  | STATEMENTS
  | REAL_TIME
deriving DecidableEq, Repr

/-- `PluginCapability[cap_str.upper()]`, `none` for the `KeyError` case
(the loader logs the unknown capability and drops it). -/
def parseCapability (s : String) : Option PluginCapability :=
  match s.toUpper with
  | "HOLDINGS" => some .HOLDINGS
  | "TRANSACTIONS" => some .TRANSACTIONS
  | "BALANCES" => some .BALANCES
  | "TRANSFERS" => some .TRANSFERS
  | "STATEMENTS" => some .STATEMENTS
  | "REAL_TIME" => some .REAL_TIME
  | _ => none

/-- `PluginMetadata` (plugins/base.py, lines 35-70). -/
structure PluginMetadataM where
  id : String
  name : String
  version : String
  author : String
  description : String
  capabilities : List PluginCapability
  supported_countries : List String
  authentication_type : String
  required_fields : List String
  optional_fields : List String
  documentation_url : Option String
  icon_url : Option String
  min_system_version : Option String
deriving DecidableEq, Repr

/-- The required manifest fields checked by `_load_manifest`. -/
def requiredManifestFields : List String :=
  ["id", "name", "version", "author", "description"]

/-- `PluginManager._load_manifest`: raise `PluginValidationError` naming
the first required field absent from the manifest; otherwise build the
`PluginMetadata`, dropping unknown capability strings. -/
def load_manifest (m : Manifest) : Except String PluginMetadataM :=
  match requiredManifestFields.find? (fun f => !manifestHasKey m f) with
  | some f => .error ("Missing required field: " ++ f)
  | none => .ok
      { id := manifestGetStr m "id" ""
        name := manifestGetStr m "name" ""
        version := manifestGetStr m "version" ""
        author := manifestGetStr m "author" ""
        description := manifestGetStr m "description" ""
        capabilities :=
          (manifestGetList m "capabilities").filterMap parseCapability
        supported_countries := manifestGetList m "supported_countries"
        authentication_type :=
          manifestGetStr m "authentication_type" "api_key"
        required_fields := manifestGetList m "required_fields"
        optional_fields := manifestGetList m "optional_fields"
        documentation_url := manifestGetStrOpt m "documentation_url"
        icon_url := manifestGetStrOpt m "icon_url"
        min_system_version := manifestGetStrOpt m "min_system_version" }

/-- One entry of the plugins directory. -/
structure DirEntry where
  name : String
  isDir : Bool
  manifest : Option Manifest
deriving DecidableEq, Repr

/-- The body of the `for entry in self.plugins_dir.iterdir()` loop of
`discover_plugins`, as the metadata the entry contributes (if any):
non-directories, names starting with an underscore or dot, and entries
without `manifest.yaml` are skipped silently; a manifest that fails
`_load_manifest` is logged and skipped (`except Exception`). -/
def discoverEntry (e : DirEntry) : Option PluginMetadataM :=
  if !e.isDir then none
  else if e.name.startsWith "_" || e.name.startsWith "." then none
  else
    match e.manifest with
    | none => none
    | some m =>
      match load_manifest m with
      | .ok md => some md
      | .error _ => none

/-- The discovery loop: accumulates `discovered_plugins` (the returned
list) and the `self._discovered` dict keyed by `metadata.id`. -/
def discoverLoop : List DirEntry → List PluginMetadataM →
    List (String × PluginMetadataM) →
    List PluginMetadataM × List (String × PluginMetadataM)
  | [], acc, disc => (acc, disc)
  | e :: rest, acc, disc =>
    match discoverEntry e with
    | some md => discoverLoop rest (acc ++ [md]) (assocSet disc md.id md)
    | none => discoverLoop rest acc disc

/-- `PluginManager.discover_plugins` on a fresh (or force-refreshed)
manager over the given directory listing: the returned metadata list. -/
def discover_plugins (entries : List DirEntry) : List PluginMetadataM :=
  (discoverLoop entries [] []).1

/-- The `self._discovered` dict after discovery. -/
def discoveredDict (entries : List DirEntry) :
    List (String × PluginMetadataM) :=
  (discoverLoop entries [] []).2

/-- `PluginManager.list_plugins` after discovery: the values of
`self._discovered`. -/
def list_plugins (entries : List DirEntry) : List PluginMetadataM :=
  (discoveredDict entries).map (fun e => e.2)

/-! ## Plugin registry (plugins/registry.py)

Functional model of the registry state (`_plugins` insertion-ordered dict,
`_enabled` set) and its operations; each operation returns the Python
return value and the state afterwards.

Lock usage is recorded separately and statically: `_lock` is a class-level
`threading.Lock`, and the only code that acquires it is `__new__` (the
singleton constructor) and the classmethod `reset` — the bodies of
`register`, `unregister`, `enable` and `disable` mutate `_plugins` /
`_enabled` with no `with self._lock:` block. -/

/-- Synchronization facts of one `PluginRegistry` method, read off its
body: whether it mutates registry state and whether it acquires
`PluginRegistry._lock`. -/
structure MethodSyncModel where
  mutates_registry_state : Bool
  acquires_lock : Bool
deriving DecidableEq, Repr

/-- Lock usage per `PluginRegistry` method (registry.py lines 51-66 for
`__new__`/`reset`, 68-102 and 170-200 for the four mutators). -/
def registryMethodSync : List (String × MethodSyncModel) := [
  ("__new__", ⟨true, true⟩),
  ("reset", ⟨true, true⟩),
  ("register", ⟨true, false⟩),
  ("unregister", ⟨true, false⟩),
  ("enable", ⟨true, false⟩),
  ("disable", ⟨true, false⟩)]

/-- The mutating instance-level operations named by the specification. -/
def registryMutatingOps : List String :=
  ["register", "unregister", "enable", "disable"]

/-- Whether the named registry method acquires the registry lock. -/
def registryOpAcquiresLock (op : String) : Bool :=
  match registryMethodSync.find? (fun e => e.1 == op) with
  | some e => e.2.acquires_lock
  | none => false

/-- Registry state: `_plugins` and `_enabled`. -/
structure RegistryState where
  plugins : List (String × PluginMetadataM)
  enabled : List String
deriving DecidableEq, Repr

/-- `set.add`: append if absent. -/
def setAdd (l : List String) (x : String) : List String :=
  if l.contains x then l else l ++ [x]

/-- `PluginRegistry.register`: no-op returning `False` when the id is
already registered, otherwise store the metadata and return `True`. -/
def RegistryState.register (s : RegistryState) (md : PluginMetadataM) :
    Bool × RegistryState :=
  if s.plugins.any (fun e => e.1 == md.id) then (false, s)
  else (true, { s with plugins := s.plugins ++ [(md.id, md)] })

/-- `PluginRegistry.unregister`: `False` when absent, otherwise delete the
metadata and discard the id from the enabled set. -/
def RegistryState.unregister (s : RegistryState) (pid : String) :
    Bool × RegistryState :=
  if !s.plugins.any (fun e => e.1 == pid) then (false, s)
  else
    (true,
     { plugins := s.plugins.filter (fun e => !(e.1 == pid))
       enabled := s.enabled.filter (fun x => !(x == pid)) })

/-- `PluginRegistry.enable`: `False` (state unchanged) when the id is not
registered, otherwise add it to the enabled set. -/
def RegistryState.enable (s : RegistryState) (pid : String) :
    Bool × RegistryState :=
  if !s.plugins.any (fun e => e.1 == pid) then (false, s)
  else (true, { s with enabled := setAdd s.enabled pid })

/-- `PluginRegistry.disable`: `False` when not enabled, otherwise discard
from the enabled set. -/
def RegistryState.disable (s : RegistryState) (pid : String) :
    Bool × RegistryState :=
  if !s.enabled.contains pid then (false, s)
  else (true, { s with enabled := s.enabled.filter (fun x => !(x == pid)) })

/-- `PluginRegistry.is_enabled`. -/
def RegistryState.is_enabled (s : RegistryState) (pid : String) : Bool :=
  s.enabled.contains pid

/-- The ids of the registered plugins. -/
def RegistryState.pluginIds (s : RegistryState) : List String :=
  s.plugins.map (fun e => e.1)

/-- The invariant relating the enabled set to the registered map: every
enabled id is a registered plugin id. -/
def enabledWithinRegistered (s : RegistryState) : Prop :=
  ∀ pid ∈ s.enabled, pid ∈ s.pluginIds

/-! ## Concrete instances used to exercise the theorems -/

/-- A holdings row as in the specification's end-to-end example:
0.5 BTC at 60000. -/
def holdingBTC : HoldingRow :=
  { symbol := "BTC", name := "Bitcoin", quantity := 1 / 2
    current_price := 60000, market_value := 30000, cost_basis := none
    currency := "USD", account_id := some "binance" }

/-- Source A of the partial-failure scenario: holdings fetch succeeds. -/
def connA : ConnectorRun :=
  { connector_type := "crypto"
    holdings := .ok (some [holdingBTC])
    transactions := .ok none }

/-- Source B of the partial-failure scenario: the sync raises
`AuthenticationError`. -/
def connB : ConnectorRun :=
  { connector_type := "broker"
    holdings := .error (.authErr "[schwab] Invalid API credentials")
    transactions := .ok none }

/-- Source C of the partial-failure scenario: succeeds with no data. -/
def connC : ConnectorRun :=
  { connector_type := "market"
    holdings := .ok none
    transactions := .ok none }

/-- Three initialized sources, the middle one failing. -/
def demoConnectors : List (String × ConnectorRun) :=
  [("ccxt", connA), ("schwab", connB), ("tiingo", connC)]

/-- An operation whose first two invocations raise a retryable error and
whose third succeeds. -/
def retryDemoOp : Nat → Except String Nat :=
  fun i => if i < 2 then .error "HTTP 429 rate limited" else .ok 42

/-- The configured retryable set: only the rate-limit error. -/
def retryDemoRetryable : String → Bool :=
  fun e => e == "HTTP 429 rate limited"

/-- An operation that always raises a non-retryable error. -/
def retryDemoFatal : Nat → Except String Nat :=
  fun _ => .error "malformed request"

/-- A fresh cache with the default 300-second TTL. -/
def cacheDemo : ResponseCache Nat := { ttl := 300, cache := [] }

/-- A rate limiter allowing 2 calls per minute that has already recorded
calls at times 1 and 5. -/
def limiterDemo : RateLimiterState :=
  { calls_per_minute := 2, min_interval := 1
    last_call_time := none, call_times := [1, 5] }

/-- A valid plugin manifest (with one unknown capability string, which
discovery drops). -/
def manifestICBC : Manifest :=
  [("id", .str "icbc"), ("name", .str "ICBC Bank"),
   ("version", .str "1.0.0"), ("author", .str "Community"),
   ("description", .str "ICBC integration"),
   ("capabilities", .strList ["holdings", "quantum"])]

/-- A manifest missing the required `version` field. -/
def manifestNoVersion : Manifest :=
  [("id", .str "badbank"), ("name", .str "Bad Bank"),
   ("author", .str "X"), ("description", .str "no version here")]

/-- Plugin package with the valid manifest. -/
def entryICBC : DirEntry := { name := "icbc", isDir := true, manifest := some manifestICBC }

/-- Plugin package whose manifest misses `version`. -/
def entryBad : DirEntry := { name := "badbank", isDir := true, manifest := some manifestNoVersion }

/-- A cache directory (skipped by the underscore rule). -/
def entryPycache : DirEntry := { name := "__pycache__", isDir := true, manifest := none }

/-- A plugins directory holding one valid package, one invalid package and
one ignored directory. -/
def demoPluginsDir : List DirEntry := [entryICBC, entryBad, entryPycache]

/-- The metadata discovery produces for the valid package. -/
def pluginMetaICBC : PluginMetadataM :=
  { id := "icbc", name := "ICBC Bank", version := "1.0.0"
    author := "Community", description := "ICBC integration"
    capabilities := [.HOLDINGS], supported_countries := []
    authentication_type := "api_key", required_fields := []
    optional_fields := [], documentation_url := none
    icon_url := none, min_system_version := none }

/-- A registry holding one registered, enabled plugin. -/
def registryDemo : RegistryState :=
  { plugins := [("icbc", pluginMetaICBC)], enabled := ["icbc"] }

/-- Whether the named registry method mutates registry state. -/
def registryOpMutates (op : String) : Bool :=
  match registryMethodSync.find? (fun e => e.1 == op) with
  | some e => e.2.mutates_registry_state
  | none => false

/-! ## Theorems -/

theorem retryLoop_consume {E A : Type} (f : Nat → Except E A)
    (retryable : E → Bool) (v : A) :
    ∀ (k attempt : Nat) (d md b : ℚ),
    (∀ i, i < k → ∃ e, f (attempt + i) = .error e ∧ retryable e = true) →
    f (attempt + k) = .ok v →
    retryLoop f retryable attempt k d md b = ⟨.ok v, attempt + k + 1⟩ := by
  intro k
  induction k with
  | zero =>
    intro attempt d md b _ hok
    simp only [Nat.add_zero] at hok
    simp [retryLoop, hok]
  | succ k ih =>
    intro attempt d md b hfail hok
    obtain ⟨e, he, hr⟩ := hfail 0 (Nat.succ_pos k)
    simp only [Nat.add_zero] at he
    have h2 : ∀ i, i < k → ∃ e, f (attempt + 1 + i) = .error e ∧
        retryable e = true := by
      intro i hi
      have h0 := hfail (i + 1) (by omega)
      have harg : attempt + (i + 1) = attempt + 1 + i := by omega
      rw [harg] at h0
      exact h0
    have h3 : f (attempt + 1 + k) = .ok v := by
      have harg : attempt + 1 + k = attempt + (k + 1) := by omega
      rw [harg]
      exact hok
    have hrec := ih (attempt + 1) (min (d * b) md) md b h2 h3
    have hcount : attempt + 1 + k + 1 = attempt + (k + 1) + 1 := by omega
    rw [hcount] at hrec
    simp [retryLoop, he, hr, hrec]

theorem retryLoop_fatal {E A : Type} (f : Nat → Except E A)
    (retryable : E → Bool) (e : E) (attempt remaining : Nat) (d md b : ℚ)
    (he : f attempt = .error e) (hr : retryable e = false) :
    retryLoop f retryable attempt remaining d md b = ⟨.error e, attempt + 1⟩ := by
  simp [retryLoop, he, hr]

/-- C2: a wrapped operation that raises a retryable (configured) exception
on exactly its first R invocations and then succeeds, run under
`retry_with_backoff(max_retries=R)`, returns the success value after
exactly R+1 invocations; an operation that always raises an exception
outside the configured retryable set is invoked exactly once and that
exception propagates immediately. -/
theorem C2_retry_policy (E A : Type) (R : Nat) (f : Nat → Except E A)
    (retryable : E → Bool) (v : A) (e : E)
    (initial_delay max_delay base : ℚ) :
    ((∀ i, i < R → ∃ er, f i = .error er ∧ retryable er = true) →
      f R = .ok v →
      retry_with_backoff R initial_delay max_delay base retryable f =
        ⟨.ok v, R + 1⟩) ∧
    ((∀ i, f i = .error e) → retryable e = false →
      retry_with_backoff R initial_delay max_delay base retryable f =
        ⟨.error e, 1⟩) := by
  constructor
  · intro hfail hok
    have h := retryLoop_consume f retryable v R 0 initial_delay max_delay base
      (by simpa using hfail) (by simpa using hok)
    simpa [retry_with_backoff] using h
  · intro hall hr
    have h := retryLoop_fatal f retryable e 0 R initial_delay max_delay base
      (hall 0) hr
    simpa [retry_with_backoff] using h

/-- Witness for C2 at R = 2: the demo operation fails twice with the
rate-limit error then returns 42 after exactly 3 invocations, and the
always-fatal operation propagates after exactly 1 invocation. -/
theorem C2_retry_policy_witness :
    retry_with_backoff 2 1 60 2 retryDemoRetryable retryDemoOp =
      ⟨.ok 42, 3⟩ ∧
    retry_with_backoff 3 1 60 2 retryDemoRetryable retryDemoFatal =
      ⟨.error "malformed request", 1⟩ := by
  constructor
  · exact (C2_retry_policy String Nat 2 retryDemoOp retryDemoRetryable 42
      "malformed request" 1 60 2).1
      (by intro i hi; interval_cases i <;> exact ⟨_, rfl, rfl⟩) rfl
  · exact (C2_retry_policy String Nat 3 retryDemoFatal retryDemoRetryable 42
      "malformed request" 1 60 2).2 (fun _ => rfl) (by decide)

/-- C8 (amended): `_validate_config` succeeds iff every required key is
present with a truthy (non-empty) value; otherwise it raises a
`ConfigurationError` whose message renders the list of every required key
that is missing or falsy — not only the first one. -/
theorem C8_validate_config (config : List (String × String))
    (required_keys : List String) :
    (validate_config config required_keys = .ok () ↔
      ∀ k ∈ required_keys,
        configHasKey config k = true ∧ configValue config k ≠ "") ∧
    ((∃ k ∈ required_keys, configKeyMissing config k = true) →
      ∃ L, validate_config config required_keys =
          .error ("Missing required config keys: " ++ pyListRepr L) ∧
        ∀ k, (k ∈ required_keys ∧ configKeyMissing config k = true) ↔
          k ∈ L) := by
  constructor
  · by_cases h : (required_keys.filter (configKeyMissing config)).isEmpty
    · simp only [validate_config, h, if_true, true_iff]
      intro k hk
      have hall := List.filter_eq_nil_iff.mp (List.isEmpty_iff.mp h) k hk
      have hfalse : configKeyMissing config k = false := by simpa using hall
      simp only [configKeyMissing, Bool.or_eq_false_iff, Bool.not_eq_false',
        beq_eq_false_iff_ne] at hfalse
      exact hfalse
    · simp only [validate_config, h, if_false]
      constructor
      · intro hc
        exact absurd hc (by simp)
      · intro hall
        exfalso
        apply h
        rw [List.isEmpty_iff, List.filter_eq_nil_iff]
        intro k hk
        have hgood := hall k hk
        simp only [Bool.not_eq_true, configKeyMissing, Bool.or_eq_false_iff,
          Bool.not_eq_false', beq_eq_false_iff_ne]
        exact hgood
  · rintro ⟨k, hk, hmiss⟩
    have hmem : k ∈ required_keys.filter (configKeyMissing config) :=
      List.mem_filter.mpr ⟨hk, hmiss⟩
    have hne : ¬(required_keys.filter (configKeyMissing config)).isEmpty := by
      rw [List.isEmpty_iff]
      exact List.ne_nil_of_mem hmem
    refine ⟨required_keys.filter (configKeyMissing config), ?_, ?_⟩
    · simp [validate_config, hne]
    · intro k2
      constructor
      · intro ⟨h1, h2⟩
        exact List.mem_filter.mpr ⟨h1, h2⟩
      · intro hm
        exact ⟨(List.mem_filter.mp hm).1, (List.mem_filter.mp hm).2⟩

/-- Counterexample to C8 as stated: with configuration
`{"api_key": ""}` every required key is present, yet `_validate_config`
still raises (the comprehension also flags keys whose value is falsy). -/
theorem C8_validate_config_counterexample :
    configHasKey [("api_key", "")] "api_key" = true ∧
    validate_config [("api_key", "")] ["api_key"] ≠ .ok () := by decide

/-- Witness for C8: a present, non-empty key validates. -/
theorem C8_validate_config_witness :
    validate_config [("api_key", "xyz")] ["api_key"] = .ok () :=
  (C8_validate_config [("api_key", "xyz")] ["api_key"]).1.mpr (by decide)

/-- C9: contrary to the specification, none of the four mutating registry
operations acquires `PluginRegistry._lock` — only the singleton
constructor `__new__` and the test-reset classmethod do. -/
theorem C9_lock_audit :
    registryMutatingOps.all
      (fun op => registryOpMutates op && !registryOpAcquiresLock op) = true ∧
    registryOpAcquiresLock "__new__" = true ∧
    registryOpAcquiresLock "reset" = true := by decide

theorem any_fst_beq_iff_mem {V : Type} (l : List (String × V)) (k : String) :
    l.any (fun e => e.1 == k) = true ↔ k ∈ l.map Prod.fst := by
  simp only [List.any_eq_true, List.mem_map, beq_iff_eq]

/-- C10: every registry operation preserves the invariant that each enabled
id is a registered plugin id; `enable` on an unregistered id returns
`False` and leaves the state unchanged; `unregister` removes the id from
the enabled set. -/
theorem C10_registry_invariant (s : RegistryState) (md : PluginMetadataM)
    (pid : String) (hinv : enabledWithinRegistered s) :
    enabledWithinRegistered (s.register md).2 ∧
    enabledWithinRegistered (s.unregister pid).2 ∧
    enabledWithinRegistered (s.enable pid).2 ∧
    enabledWithinRegistered (s.disable pid).2 ∧
    (pid ∉ s.pluginIds → s.enable pid = (false, s)) ∧
    pid ∉ (s.unregister pid).2.enabled := by
  refine ⟨?_, ?_, ?_, ?_, ?_, ?_⟩
  · unfold RegistryState.register
    split
    · exact hinv
    · intro x hx
      have hold := hinv x hx
      unfold RegistryState.pluginIds at hold ⊢
      simp only [List.map_append]
      exact List.mem_append_left _ hold
  · unfold RegistryState.unregister
    split
    · exact hinv
    · intro x hx
      simp only [List.mem_filter, Bool.not_eq_true', beq_eq_false_iff_ne] at hx
      have hold := hinv x hx.1
      unfold RegistryState.pluginIds at hold ⊢
      simp only [List.mem_map] at hold ⊢
      obtain ⟨entry, hentry, hfst⟩ := hold
      refine ⟨entry, List.mem_filter.mpr ⟨hentry, ?_⟩, hfst⟩
      simp only [Bool.not_eq_true', beq_eq_false_iff_ne]
      rw [hfst]
      exact hx.2
  · unfold RegistryState.enable
    split
    · exact hinv
    · next hc =>
      intro x hx
      unfold setAdd at hx
      split at hx
      · exact hinv x hx
      · rcases List.mem_append.mp hx with h | h
        · exact hinv x h
        · have hx2 : x = pid := by simpa using h
          have hany : s.plugins.any (fun e => e.1 == pid) = true := by
            cases hval : s.plugins.any (fun e => e.1 == pid) with
            | true => rfl
            | false => exact absurd (by simp [hval]) hc
          rw [hx2]
          exact (any_fst_beq_iff_mem s.plugins pid).mp hany
  · unfold RegistryState.disable
    split
    · exact hinv
    · intro x hx
      exact hinv x (List.mem_filter.mp hx).1
  · intro hno
    unfold RegistryState.enable
    have hany : s.plugins.any (fun e => e.1 == pid) = false := by
      rw [← Bool.not_eq_true]
      intro hc
      exact hno ((any_fst_beq_iff_mem s.plugins pid).mp hc)
    simp [hany]
  · unfold RegistryState.unregister
    split
    · next hc =>
      intro hmem
      have hids : pid ∈ s.pluginIds := hinv pid hmem
      have hany := (any_fst_beq_iff_mem s.plugins pid).mpr hids
      simp [hany] at hc
    · intro hmem
      simp only [List.mem_filter, Bool.not_eq_true', beq_eq_false_iff_ne] at hmem
      exact hmem.2 rfl

/-- Witness for C10 on a registry holding the enabled plugin `icbc`:
unregistering preserves the invariant and removes the id from the enabled
set, and enabling an unknown id is a rejected no-op. -/
theorem C10_registry_invariant_witness :
    enabledWithinRegistered (RegistryState.unregister registryDemo "icbc").2 ∧
    "icbc" ∉ (RegistryState.unregister registryDemo "icbc").2.enabled ∧
    RegistryState.enable registryDemo "ghost" = (false, registryDemo) := by
  have hinv : enabledWithinRegistered registryDemo := by
    intro pid hpid
    simp only [registryDemo, List.mem_singleton] at hpid
    simp [registryDemo, RegistryState.pluginIds, hpid]
  refine ⟨?_, ?_, ?_⟩
  · exact (C10_registry_invariant registryDemo pluginMetaICBC "icbc" hinv).2.1
  · exact (C10_registry_invariant registryDemo pluginMetaICBC "icbc" hinv).2.2.2.2.2
  · exact (C10_registry_invariant registryDemo pluginMetaICBC "ghost" hinv).2.2.2.2.1
      (by decide)

theorem assocSet_find? {V : Type} (l : List (String × V)) (k : String)
    (v : V) :
    (assocSet l k v).find? (fun e => e.1 == k) = some (k, v) := by
  induction l with
  | nil => simp [assocSet]
  | cons hd tl ih =>
    obtain ⟨k0, v0⟩ := hd
    by_cases h : k0 = k
    · subst h
      simp [assocSet]
    · simp only [assocSet, if_neg h]
      rw [List.find?_cons_of_neg _ (by simpa using h)]
      exact ih

theorem assocSet_keys {V : Type} (l : List (String × V)) (k : String)
    (v : V) :
    (assocSet l k v).map Prod.fst =
      if k ∈ l.map Prod.fst then l.map Prod.fst
      else l.map Prod.fst ++ [k] := by
  induction l with
  | nil => simp [assocSet]
  | cons hd tl ih =>
    obtain ⟨k0, v0⟩ := hd
    by_cases h : k0 = k
    · subst h
      simp [assocSet]
    · simp only [assocSet, if_neg h, List.map_cons]
      rw [ih]
      by_cases hmem : k ∈ tl.map Prod.fst
      · simp [hmem, h, Ne.symm h]
      · simp [hmem, h, Ne.symm h]

theorem assocSet_mem_key {V : Type} (l : List (String × V)) (k : String)
    (v : V) : k ∈ (assocSet l k v).map Prod.fst := by
  rw [assocSet_keys]
  split
  · assumption
  · exact List.mem_append_right _ (List.mem_singleton.mpr rfl)

theorem assocSet_nodup_keys {V : Type} (l : List (String × V)) (k : String)
    (v : V) (hnd : (l.map Prod.fst).Nodup) :
    ((assocSet l k v).map Prod.fst).Nodup := by
  rw [assocSet_keys]
  split
  · exact hnd
  · next hmem =>
    rw [← List.concat_eq_append]
    exact List.Nodup.concat hmem hnd

theorem filter_out_key_length {V : Type} (l : List (String × V))
    (k : String) (hnd : (l.map Prod.fst).Nodup) (hk : k ∈ l.map Prod.fst) :
    (l.filter (fun e => !(e.1 == k))).length + 1 = l.length := by
  induction l with
  | nil => cases hk
  | cons hd tl ih =>
    obtain ⟨k0, v0⟩ := hd
    simp only [List.map_cons, List.nodup_cons] at hnd
    by_cases h : k0 = k
    · subst h
      have hrest : tl.filter (fun e => !(e.1 == k0)) = tl := by
        apply List.filter_eq_self.mpr
        intro e he
        simp only [Bool.not_eq_true', beq_eq_false_iff_ne]
        intro hc
        exact hnd.1 (hc ▸ List.mem_map_of_mem Prod.fst he)
      simp [hrest]
    · have hk2 : k ∈ tl.map Prod.fst := by
        rcases List.mem_cons.mp hk with hc | hc
        · exact absurd hc.symm h
        · exact hc
      have := ih hnd.2 hk2
      simp only [List.filter_cons]
      rw [if_pos (by simpa using h)]
      simp only [List.length_cons]
      omega

theorem filter_out_key_not_mem {V : Type} (l : List (String × V))
    (k : String) :
    k ∉ ((l.filter (fun e => !(e.1 == k))).map Prod.fst) := by
  intro hmem
  obtain ⟨e, he, hfst⟩ := List.mem_map.mp hmem
  have := (List.mem_filter.mp he).2
  simp only [Bool.not_eq_true', beq_eq_false_iff_ne] at this
  exact this hfst

/-- C4: `set(k, v)` at time t₁ followed by `get(k)` strictly before the
expiry `t₁ + ttl` returns `v`; a `get(k)` at or after the expiry misses,
evicts the entry (the key is gone from the store), and a subsequent
`stats()` counts exactly one entry fewer. -/
theorem C4_cache_ttl {V : Type} (c : ResponseCache V) (k : String) (v : V)
    (t₁ t₂ : ℚ) (hnd : (c.cache.map Prod.fst).Nodup) :
    (t₂ < t₁ + c.ttl →
      ((ResponseCache.set c t₁ k v none).get t₂ k).1 = some v) ∧
    (t₁ + c.ttl ≤ t₂ →
      ((ResponseCache.set c t₁ k v none).get t₂ k).1 = none ∧
      k ∉ (((ResponseCache.set c t₁ k v none).get t₂ k).2.cache.map
        Prod.fst) ∧
      ∀ t₃, (((ResponseCache.set c t₁ k v none).get t₂ k).2.stats
          t₃).entries + 1 =
        ((ResponseCache.set c t₁ k v none).stats t₃).entries) := by
  have hset : (ResponseCache.set c t₁ k v none).cache =
      assocSet c.cache k (v, t₁ + c.ttl) := by
    simp [ResponseCache.set]
  have hfind := assocSet_find? c.cache k (v, t₁ + c.ttl)
  constructor
  · intro hlt
    simp only [ResponseCache.get, hset, hfind, if_pos hlt]
  · intro hge
    have hnlt : ¬(t₂ < t₁ + c.ttl) := not_lt.mpr hge
    refine ⟨?_, ?_, ?_⟩
    · simp only [ResponseCache.get, hset, hfind, if_neg hnlt]
    · simp only [ResponseCache.get, hset, hfind, if_neg hnlt]
      exact filter_out_key_not_mem _ k
    · intro t₃
      simp only [ResponseCache.get, hset, hfind, if_neg hnlt,
        ResponseCache.stats]
      exact filter_out_key_length _ k (assocSet_nodup_keys _ _ _ hnd)
        (assocSet_mem_key _ _ _)

/-- Witness for C4 on a fresh cache with 300 s TTL: a get at t = 100
returns the stored value, a get at t = 300 misses, and the stats entry
count drops back by one. -/
theorem C4_cache_ttl_witness :
    ((ResponseCache.set cacheDemo 0 "price_AAPL" 101 none).get 100
      "price_AAPL").1 = some 101 ∧
    ((ResponseCache.set cacheDemo 0 "price_AAPL" 101 none).get 300
      "price_AAPL").1 = none ∧
    (((ResponseCache.set cacheDemo 0 "price_AAPL" 101 none).get 300
        "price_AAPL").2.stats 300).entries + 1 =
      ((ResponseCache.set cacheDemo 0 "price_AAPL" 101 none).stats
        300).entries := by
  have h1 := (C4_cache_ttl cacheDemo "price_AAPL" 101 0 100 (by decide)).1
    (by with_unfolding_all decide)
  have h2 := (C4_cache_ttl cacheDemo "price_AAPL" 101 0 300 (by decide)).2
    (by with_unfolding_all decide)
  exact ⟨h1, h2.1, h2.2.2 300⟩

/-- C5: `wait()` returns the actual total delay it incurred — the recorded
new call time is exactly `now` plus the returned delay; when the sliding
window already holds `calls_per_minute` recent calls, the call sleeps at
least until the oldest recorded call is 60 seconds old; and when neither
the minute ceiling nor the inter-call interval requires waiting, the
returned delay is 0. -/
theorem C5_rate_limiter_wait (s : RateLimiterState) (now : ℚ) :
    ((s.wait now).2.last_call_time = some (now + (s.wait now).1)) ∧
    (∀ t0 rest, 1 ≤ s.calls_per_minute → s.call_times = t0 :: rest →
      (∀ t ∈ s.call_times, now - t < 60) →
      s.calls_per_minute ≤ s.call_times.length →
      t0 + 60 ≤ now + (s.wait now).1) ∧
    ((s.call_times.filter (fun t => decide (now - t < 60))).length <
        s.calls_per_minute →
      (∀ l, s.last_call_time = some l → l ≠ 0 →
        s.min_interval ≤ now - l) →
      (s.wait now).1 = 0) := by
  refine ⟨?_, ?_, ?_⟩
  · simp only [RateLimiterState.wait]
    rw [add_assoc]
  · intro t0 rest hcpm hct hwin hlen
    have hfilter : s.call_times.filter (fun t => decide (now - t < 60)) =
        s.call_times :=
      List.filter_eq_self.mpr (fun a ha => by simpa using hwin a ha)
    have h60 : now - t0 < 60 := hwin t0 (by rw [hct]; exact List.mem_cons_self _ _)
    have hpos : 0 < 60 - (now - t0) := by linarith
    rw [hct] at hlen hfilter
    simp only [RateLimiterState.wait, hct, hfilter, List.headD_cons]
    rw [if_pos hlen, if_pos hpos]
    have key : ∀ i : ℚ, 0 ≤ i → t0 + 60 ≤ now + (60 - (now - t0) + i) := by
      intro i hi
      linarith
    apply key
    rcases hcase : s.last_call_time with _ | l
    · simp
    · simp only []
      by_cases hl0 : l = 0
      · simp [hl0]
      · rw [if_neg hl0]
        split_ifs with hiv
        · linarith
        · linarith
  · intro hlt hint
    simp only [RateLimiterState.wait]
    rw [if_neg (not_le.mpr hlt)]
    rcases hcase : s.last_call_time with _ | l
    · simp
    · simp only []
      by_cases hl0 : l = 0
      · simp [hl0]
      · rw [if_neg hl0]
        have hge := hint l hcase hl0
        rw [if_neg (by push_neg; linarith)]
        simp

/-- Witness for C5 at `calls_per_minute = 2` with calls recorded at times
1 and 5: a third `wait()` at time 30 records `now + delay` as the new call
time and proceeds no earlier than 60 seconds after the oldest call. -/
theorem C5_rate_limiter_wait_witness :
    (limiterDemo.wait 30).2.last_call_time =
      some (30 + (limiterDemo.wait 30).1) ∧
    (1 : ℚ) + 60 ≤ 30 + (limiterDemo.wait 30).1 := by
  refine ⟨(C5_rate_limiter_wait limiterDemo 30).1, ?_⟩
  exact (C5_rate_limiter_wait limiterDemo 30).2.1 1 [5] (by decide) rfl
    (by with_unfolding_all decide) (by decide)

theorem syncStep_source_results (acc : SyncResultsM) (sid : String)
    (c : ConnectorRun) :
    (syncStep acc sid c).source_results =
      acc.source_results ++ [sync_source sid c] := by
  simp only [syncStep]
  split <;> rfl

theorem syncStep_errors (acc : SyncResultsM) (sid : String)
    (c : ConnectorRun) :
    (syncStep acc sid c).errors =
      acc.errors ++ (errEntry sid (sync_source sid c)).toList := by
  simp only [syncStep, errEntry]
  split
  · next hcond => simp [errEntry, hcond]
  · next hcond => simp [errEntry, hcond]

theorem runFullSyncLoop_spec (cs : List (String × ConnectorRun)) :
    ∀ acc, (runFullSyncLoop acc cs).source_results =
        acc.source_results ++ cs.map (fun p => sync_source p.1 p.2) ∧
      (runFullSyncLoop acc cs).errors =
        acc.errors ++
          cs.filterMap (fun p => errEntry p.1 (sync_source p.1 p.2)) := by
  induction cs with
  | nil =>
    intro acc
    simp [runFullSyncLoop]
  | cons hd tl ih =>
    intro acc
    obtain ⟨sid, c⟩ := hd
    obtain ⟨h1, h2⟩ := ih (syncStep acc sid c)
    constructor
    · simp only [runFullSyncLoop, h1, syncStep_source_results]
      simp
    · simp only [runFullSyncLoop, h2, syncStep_errors]
      cases herr : errEntry sid (sync_source sid c) <;>
        simp [List.filterMap_cons, herr]

theorem sync_source_raises_fields (sid : String) (c : ConnectorRun)
    (e : PyExn) (h : connectorRaises c e) :
    (sync_source sid c).success = false ∧
    (sync_source sid c).error_message = some (syncErrorMessage e) := by
  rcases h with hh | ⟨hopt, hh, ht⟩
  · simp [sync_source, hh]
  · simp only [sync_source, hh, ht]
    cases hopt with
    | none => simp
    | some h2 =>
      by_cases hlen : 0 < h2.length
      · simp [hlen]
      · simp [hlen]

theorem syncErrorMessage_carries (e : PyExn) :
    ∃ p, syncErrorMessage e = p ++ pyExnText e ∧ p ≠ "" := by
  cases e with
  | authErr m => exact ⟨"Authentication failed: ", rfl, by decide⟩
  | rateErr m => exact ⟨"Rate limit exceeded: ", rfl, by decide⟩
  | fetchErr m => exact ⟨"Data fetch failed: ", rfl, by decide⟩
  | other m => exact ⟨"Unexpected error: ", rfl, by decide⟩

theorem append_ne_empty_of_left (p t : String) (hp : p ≠ "") :
    p ++ t ≠ "" := by
  intro hc
  apply hp
  have hd : (p ++ t).data = ("" : String).data := congrArg String.data hc
  rw [String.data_append] at hd
  obtain ⟨h1, _⟩ := List.append_eq_nil.mp hd
  cases p with
  | mk pdata =>
    simp only [String.data] at h1
    rw [h1]

theorem errEntry_of_raises (sid : String) (c : ConnectorRun) (e : PyExn)
    (h : connectorRaises c e) :
    errEntry sid (sync_source sid c) =
      some (sid ++ ": " ++ syncErrorMessage e) := by
  obtain ⟨hsucc, hmsg⟩ := sync_source_raises_fields sid c e h
  have hne : syncErrorMessage e ≠ "" := by
    obtain ⟨p, hp, hpne⟩ := syncErrorMessage_carries e
    rw [hp]
    exact append_ne_empty_of_left p (pyExnText e) hpne
  unfold errEntry
  rw [hsucc, hmsg]
  simp [errTruthy, hne]

/-- C1: over any set of initialized connectors, `run_full_sync` produces
one `ImportResult` per source (in order); its error list holds exactly one
entry per failed source; a source whose sync raises any of the connector
exceptions yields a failed `ImportResult` whose message carries the
original exception text behind a nonempty prefix, plus the corresponding
error entry; and the aggregate `success` flag is true iff at least one
source's `ImportResult` succeeded. -/
theorem C1_run_full_sync (cs : List (String × ConnectorRun)) :
    (run_full_sync cs none).source_results =
      cs.map (fun p => sync_source p.1 p.2) ∧
    (run_full_sync cs none).errors =
      cs.filterMap (fun p => errEntry p.1 (sync_source p.1 p.2)) ∧
    (∀ sid c e, (sid, c) ∈ cs → connectorRaises c e →
      (sync_source sid c).success = false ∧
      (sync_source sid c).error_message = some (syncErrorMessage e) ∧
      (∃ p, syncErrorMessage e = p ++ pyExnText e ∧ p ≠ "") ∧
      errEntry sid (sync_source sid c) =
        some (sid ++ ": " ++ syncErrorMessage e)) ∧
    ((run_full_sync cs none).successFlag = true ↔
      ∃ r ∈ (run_full_sync cs none).source_results, r.success = true) := by
  have hspec := runFullSyncLoop_spec cs
    { source_results := []
      total_records_imported := 0
      total_records_updated := 0
      total_records_skipped := 0
      errors := [] }
  refine ⟨?_, ?_, ?_, ?_⟩
  · simpa [run_full_sync] using hspec.1
  · simpa [run_full_sync] using hspec.2
  · intro sid c e _ hraise
    exact ⟨(sync_source_raises_fields sid c e hraise).1,
      (sync_source_raises_fields sid c e hraise).2,
      syncErrorMessage_carries e, errEntry_of_raises sid c e hraise⟩
  · simp [SyncResultsM.successFlag, List.any_eq_true]

/-- Witness for C1 on the three-source scenario with source B raising
`AuthenticationError`: B's result fails carrying the original message, the
cycle's error list holds exactly B's entry, the job still succeeds, and
all three sources have results. -/
theorem C1_run_full_sync_witness :
    (sync_source "schwab" connB).success = false ∧
    (sync_source "schwab" connB).error_message =
      some "Authentication failed: [schwab] Invalid API credentials" ∧
    errEntry "schwab" (sync_source "schwab" connB) =
      some "schwab: Authentication failed: [schwab] Invalid API credentials" ∧
    (run_full_sync demoConnectors none).errors =
      ["schwab: Authentication failed: [schwab] Invalid API credentials"] ∧
    (run_full_sync demoConnectors none).successFlag = true ∧
    (run_full_sync demoConnectors none).source_results.length = 3 := by
  have h := C1_run_full_sync demoConnectors
  have hb := h.2.2.1 "schwab" connB
    (.authErr "[schwab] Invalid API credentials")
    (by with_unfolding_all decide) (Or.inl rfl)
  refine ⟨hb.1, hb.2.1.trans (by decide), hb.2.2.2.trans (by decide),
    ?_, ?_, ?_⟩
  · rw [h.2.1]
    with_unfolding_all decide
  · with_unfolding_all decide
  · rw [h.1]
    with_unfolding_all decide

theorem str_append_left_cancel (s a b : String) (h : s ++ a = s ++ b) :
    a = b := by
  apply String.ext
  have hd := congrArg String.data h
  rw [String.data_append, String.data_append] at hd
  exact List.append_cancel_left hd

theorem pyJoin_snoc (sep x y : String) (xs : List String) :
    pyJoin sep (x :: (xs ++ [y])) = pyJoin sep (x :: xs) ++ sep ++ y := by
  induction xs generalizing x with
  | nil => simp [pyJoin]
  | cons z zs ih =>
    simp only [List.cons_append, List.append_eq, pyJoin]
    rw [ih z]
    simp [String.append_assoc]

theorem payload_last_inj (source sep x y : String) (mid : List String)
    (h : pyJoin sep (source :: (mid ++ [x])) =
      pyJoin sep (source :: (mid ++ [y]))) : x = y := by
  rw [pyJoin_snoc, pyJoin_snoc] at h
  exact str_append_left_cancel _ _ _ h

/-- C3 (amended): with no explicit transaction id, identical
(source, date, symbol, amount) always derive the same id; amounts whose
six-decimal renderings (`f"{amount:.6f}"`) differ produce different hash
payloads, and hence different ids whenever the truncated SHA-256 digests
differ.  (Amounts that differ as numbers but agree at six decimal places
collapse to the same id — see the counterexample.) -/
theorem C3_generate_source_id (source : String) (date : Option PyDateTime)
    (symbol : Option String) (a₁ a₂ : ℚ) :
    (a₁ = a₂ →
      generate_source_id source none date symbol (some a₁) =
        generate_source_id source none date symbol (some a₂)) ∧
    (format6 a₁ ≠ format6 a₂ →
      sourceIdPayload source date symbol (some a₁) ≠
        sourceIdPayload source date symbol (some a₂) ∧
      (sha256hex16 (sourceIdPayload source date symbol (some a₁)) ≠
          sha256hex16 (sourceIdPayload source date symbol (some a₂)) →
        generate_source_id source none date symbol (some a₁) ≠
          generate_source_id source none date symbol (some a₂))) := by
  have hform : ∀ a : ℚ, sourceIdPayload source date symbol (some a) =
      pyJoin "|" (source ::
        (((match date with
            | some d => [d.isoformat]
            | none => []) ++
          (match symbol with
            | some s => if s = "" then [] else [s]
            | none => [])) ++ [format6 a])) := by
    intro a
    unfold sourceIdPayload sourceIdComponents
    congr 1
  constructor
  · intro h
    rw [h]
  · intro hfmt
    constructor
    · intro hc
      rw [hform, hform] at hc
      exact hfmt (payload_last_inj source "|" _ _ _ hc)
    · intro hsha hc
      apply hsha
      unfold generate_source_id at hc
      exact str_append_left_cancel _ _ _ hc

set_option maxRecDepth 10000 in
/-- Counterexample to C3 as stated: the amounts 1e-8 and 2e-8 differ, but
both render as `0.000000` at six decimal places, so `generate_source_id`
derives the same id for both transactions. -/
theorem C3_generate_source_id_counterexample :
    ((1 : ℚ) / 100000000 ≠ 2 / 100000000) ∧
    generate_source_id "binance" none (some ⟨2024, 1, 2, 3, 4, 5⟩)
        (some "BTC") (some (1 / 100000000)) =
      generate_source_id "binance" none (some ⟨2024, 1, 2, 3, 4, 5⟩)
        (some "BTC") (some (2 / 100000000)) := by
  constructor
  · with_unfolding_all decide
  · with_unfolding_all decide

set_option maxRecDepth 10000 in
/-- Witness for C3: amounts 1 and 2 format differently at six decimals,
their digests differ, and the derived ids differ. -/
theorem C3_generate_source_id_witness :
    generate_source_id "binance" none (some ⟨2024, 1, 2, 3, 4, 5⟩)
        (some "BTC") (some 1) ≠
      generate_source_id "binance" none (some ⟨2024, 1, 2, 3, 4, 5⟩)
        (some "BTC") (some 2) :=
  ((C3_generate_source_id "binance" (some ⟨2024, 1, 2, 3, 4, 5⟩)
      (some "BTC") 1 2).2 (by with_unfolding_all decide)).2
    (by with_unfolding_all decide)

/-- C6 (amended): an unauthenticated `get_holdings` raises
`DataFetchError`, and a successful call with zero positions returns the
explicitly empty table; but a cycle in which every per-exchange sub-fetch
raises returns that same empty table — the per-exchange failures are
swallowed, so "no data" and "fetch failed" coincide at the contract
boundary. -/
theorem C6_ccxt_get_holdings
    (exchanges : List (String × Except PyExn (Option (List HoldingRow)))) :
    ccxt_get_holdings false none exchanges =
      .error (.fetchErr "Not authenticated. Call authenticate() first.") ∧
    ((∀ p ∈ exchanges, p.2 = Except.ok none ∨ p.2 = Except.ok (some [])) →
      ccxt_get_holdings true none exchanges = .ok (some [])) ∧
    ((∀ p ∈ exchanges, ∃ e, p.2 = Except.error e) →
      ccxt_get_holdings true none exchanges = .ok (some [])) ∧
    (∀ eid price, fetch_exchange_holdings eid price [] = none) := by
  refine ⟨rfl, ?_, ?_, fun eid price => rfl⟩
  · intro hall
    simp only [ccxt_get_holdings, Bool.not_true]
    have hfm : exchanges.filterMap (fun p =>
        match p.2 with
        | .ok (some h) => if 0 < h.length then some h else none
        | .ok none => none
        | .error _ => none) = ([] : List (List HoldingRow)) := by
      rw [List.filterMap_eq_nil_iff]
      intro p hp
      rcases hall p hp with h | h <;> simp [h]
    simp [hfm]
  · intro hall
    simp only [ccxt_get_holdings, Bool.not_true]
    have hfm : exchanges.filterMap (fun p =>
        match p.2 with
        | .ok (some h) => if 0 < h.length then some h else none
        | .ok none => none
        | .error _ => none) = ([] : List (List HoldingRow)) := by
      rw [List.filterMap_eq_nil_iff]
      intro p hp
      obtain ⟨e, he⟩ := hall p hp
      simp [he]
    simp [hfm]

/-- Counterexample to C6 as stated: for a CCXT connector with one
authenticated exchange, a sub-fetch that raises a network error and a
sub-fetch that finds zero positions yield the identical `get_holdings`
result — the explicitly empty table — so "fetch failed" and "no data" are
represented by the same value. -/
theorem C6_ccxt_get_holdings_counterexample :
    ccxt_get_holdings true none
        [("binance", Except.ok (fetch_exchange_holdings "binance"
          (fun _ => none) []))] =
      ccxt_get_holdings true none
        [("binance", Except.error (PyExn.fetchErr
          "Network error: connection timeout (binance)"))] ∧
    ccxt_get_holdings true none
        [("binance", Except.ok (fetch_exchange_holdings "binance"
          (fun _ => none) []))] = .ok (some []) := by
  constructor <;> rfl

/-- Witness for C6: both the all-empty cycle and the all-failing cycle on
one exchange return the empty table. -/
theorem C6_ccxt_get_holdings_witness :
    ccxt_get_holdings true none
        [("binance", Except.ok (none : Option (List HoldingRow)))] =
      .ok (some []) ∧
    ccxt_get_holdings true none
        [("binance", Except.error (PyExn.fetchErr
          "Network error: connection timeout (binance)"))] =
      .ok (some []) := by
  constructor
  · exact (C6_ccxt_get_holdings
      [("binance", Except.ok none)]).2.1 (by decide)
  · exact (C6_ccxt_get_holdings
      [("binance", Except.error (PyExn.fetchErr
        "Network error: connection timeout (binance)"))]).2.2.1
      (by
        intro p hp
        rw [List.mem_singleton] at hp
        subst hp
        exact ⟨_, rfl⟩)

theorem discoverLoop_fst (entries : List DirEntry) :
    ∀ acc disc, (discoverLoop entries acc disc).1 =
      acc ++ entries.filterMap discoverEntry := by
  induction entries with
  | nil =>
    intro acc disc
    simp [discoverLoop]
  | cons e rest ih =>
    intro acc disc
    cases he : discoverEntry e with
    | none => simp [discoverLoop, he, ih, List.filterMap_cons]
    | some md => simp [discoverLoop, he, ih, List.filterMap_cons]

theorem assocSet_values_subset {V : Type} (l : List (String × V))
    (k : String) (v x : V)
    (hx : x ∈ (assocSet l k v).map Prod.snd) :
    x ∈ l.map Prod.snd ∨ x = v := by
  induction l with
  | nil =>
    simp [assocSet] at hx
    right
    exact hx
  | cons hd tl ih =>
    obtain ⟨k0, v0⟩ := hd
    by_cases h : k0 = k
    · simp only [assocSet, if_pos h, List.map_cons, List.mem_cons] at hx
      rcases hx with hx | hx
      · right
        exact hx
      · left
        exact List.mem_cons_of_mem _ hx
    · simp only [assocSet, if_neg h, List.map_cons, List.mem_cons] at hx
      rcases hx with hx | hx
      · left
        rw [hx]
        exact List.mem_cons_self _ _
      · rcases ih hx with h2 | h2
        · left
          exact List.mem_cons_of_mem _ h2
        · right
          exact h2

theorem discoverLoop_snd_values (entries : List DirEntry) :
    ∀ acc disc x, x ∈ ((discoverLoop entries acc disc).2.map Prod.snd) →
      x ∈ disc.map Prod.snd ∨ x ∈ entries.filterMap discoverEntry := by
  induction entries with
  | nil =>
    intro acc disc x hx
    simp only [discoverLoop] at hx
    left
    exact hx
  | cons e rest ih =>
    intro acc disc x hx
    cases he : discoverEntry e with
    | none =>
      simp only [discoverLoop, he] at hx
      rcases ih _ _ x hx with h | h
      · left
        exact h
      · right
        simp [List.filterMap_cons, he, h]
    | some md =>
      simp only [discoverLoop, he] at hx
      rcases ih _ _ x hx with h | h
      · rcases assocSet_values_subset disc md.id md x h with h2 | h2
        · left
          exact h2
        · right
          rw [h2]
          simp [List.filterMap_cons, he]
      · right
        simp only [List.filterMap_cons, he]
        exact List.mem_cons_of_mem _ h
  
/-- C7: discovery maps each directory entry independently — a package
whose manifest lacks any of the required fields (in particular `version`)
contributes nothing, every package whose manifest validates is in the
returned list regardless of its neighbours, and `list_plugins` never
reports a plugin that discovery did not return. -/
theorem C7_discover_plugins (entries : List DirEntry) :
    discover_plugins entries = entries.filterMap discoverEntry ∧
    (∀ e : DirEntry, ∀ m, e.manifest = some m →
      (∃ f ∈ requiredManifestFields, manifestHasKey m f = false) →
      discoverEntry e = none) ∧
    (∀ e ∈ entries, ∀ md, discoverEntry e = some md →
      md ∈ discover_plugins entries) ∧
    (∀ md ∈ list_plugins entries, md ∈ discover_plugins entries) := by
  have h1 : discover_plugins entries = entries.filterMap discoverEntry := by
    unfold discover_plugins
    rw [discoverLoop_fst]
    simp
  refine ⟨h1, ?_, ?_, ?_⟩
  · rintro e m hm ⟨f, hf, hmiss⟩
    unfold discoverEntry
    split
    · rfl
    · split
      · rfl
      · rw [hm]
        simp only [load_manifest]
        cases hfind : requiredManifestFields.find?
            (fun f => !manifestHasKey m f) with
        | none =>
          exfalso
          have := List.find?_eq_none.mp hfind f hf
          simp only [Bool.not_eq_true', Bool.not_eq_false] at this
          exact absurd this (by simp [hmiss])
        | some f2 => simp [hfind]
  · intro e he md hmd
    rw [h1]
    exact List.mem_filterMap.mpr ⟨e, he, hmd⟩
  · intro md hmd
    unfold list_plugins discoveredDict at hmd
    rcases discoverLoop_snd_values entries [] [] md hmd with h | h
    · simp at h
    · rw [h1]
      exact h

/-- Witness for C7 on a directory with a valid package, a package missing
`version`, and a `__pycache__` directory: only the valid package is
discovered, and the invalid one is excluded without blocking it. -/
theorem C7_discover_plugins_witness :
    discover_plugins demoPluginsDir = [pluginMetaICBC] ∧
    discoverEntry entryBad = none ∧
    pluginMetaICBC ∈ discover_plugins demoPluginsDir := by
  have h := C7_discover_plugins demoPluginsDir
  refine ⟨?_, ?_, ?_⟩
  · rw [h.1]
    with_unfolding_all decide
  · exact h.2.1 entryBad manifestNoVersion rfl ⟨"version", by decide, by decide⟩
  · exact h.2.2.1 entryICBC (by decide) pluginMetaICBC
      (by with_unfolding_all decide)
